import Mathlib

set_option maxHeartbeats 1000000

/-!
Shallow embedding of the DSA BM25 server (files `dsa_bm25_server.py` and
`query_bm25.py`).  The repository's own code is the thin loading and facade
layer; tokenization, retrieval and scoring are delegated to the third-party
`bm25s` library, which is not part of the repository's sources.  Those engine
parts are modelled from the specification (sections 4.1, 4.4, 4.5) and are
marked as such in their doc comments; everything else is translated directly
from the Python sources.

Scores are kept abstract in the retrieval model: `retrieve` and the facade
are parametric in an ordered additive monoid of scores, so the ranking
properties hold for real-valued BM25 scores while concrete instances can be
evaluated over the integers.  The BM25 contribution formula itself is
embedded separately over the reals.
-/

/-- JSON values as parsed from the `meta.jsonl` sidecar (one object per line).
Numbers are modelled as integers, which covers every field the server code
inspects (only the integer-valued `doc_id` key is ever read). -/
inductive JsonVal : Type where
  | jnull : JsonVal
  | jbool : Bool → JsonVal
  | jnum : Int → JsonVal
  | jstr : String → JsonVal
  | jarr : List JsonVal → JsonVal
  | jobj : List (String × JsonVal) → JsonVal

/-- Python `isinstance(m, dict) and k in m`: true exactly when the value is
an object carrying the key. -/
def JsonVal.hasKey : JsonVal → String → Bool
  | .jobj fields, k => fields.any (fun p => p.1 == k)
  | _, _ => false

/-- Python `m[k]` on a dict (first binding wins; parsed JSON objects have
unique keys), `none` when the value is not an object or lacks the key. -/
def JsonVal.getKey : JsonVal → String → Option JsonVal
  | .jobj fields, k => (fields.find? (fun p => p.1 == k)).map Prod.snd
  | _, _ => none

/-- Decimal digit run to a number, `none` on an empty or non-digit run. -/
def parseDigits (cs : List Char) : Option Nat :=
  if cs.isEmpty then none
  else if cs.all Char.isDigit then
    some (cs.foldl (fun a c => a * 10 + (c.toNat - 48)) 0)
  else none

/-- Python `int(s)` on a string: strip surrounding whitespace, allow an
optional sign, then decimal digits (underscore separators are not modelled;
no sidecar in scope uses them). -/
def pyIntOfStr (s : String) : Option Int :=
  let cs := ((s.data.dropWhile Char.isWhitespace).reverse.dropWhile Char.isWhitespace).reverse
  match cs with
  | '-' :: rest => (parseDigits rest).map (fun n => -(n : Int))
  | '+' :: rest => (parseDigits rest).map (fun n => (n : Int))
  | _ => (parseDigits cs).map (fun n => (n : Int))

/-- Python `int(x)` on a JSON value: integers pass through, booleans map to
0/1, strings are parsed as signed decimal; anything else raises (modelled as
`none`). -/
def pyInt : JsonVal → Option Int
  | .jnum n => some n
  | .jbool b => some (if b then 1 else 0)
  | .jstr s => pyIntOfStr s
  | _ => none

/-- The sort key `int(m["doc_id"])` used by the server when aligning the
sidecar: `none` when the record lacks the key or the value does not convert
to an integer (the cases in which Python raises inside the sort). -/
def docIdKey (m : JsonVal) : Option Int :=
  match m.getKey "doc_id" with
  | some v => pyInt v
  | none => none

/-- The guard `metas and isinstance(metas[0], dict) and "doc_id" in metas[0]`
from `dsa_bm25_server.py`. -/
def headHasDocId : List JsonVal → Bool
  | [] => false
  | m :: _ => m.hasKey "doc_id"

/-- Ordering used by `metas.sort(key=lambda m: int(m["doc_id"]))`, on records
paired with their precomputed integer key. -/
def alignRel : (Int × JsonVal) → (Int × JsonVal) → Prop := fun a b => a.1 ≤ b.1

instance : DecidableRel alignRel :=
  fun a b => inferInstanceAs (Decidable (a.1 ≤ b.1))

instance : IsTotal (Int × JsonVal) alignRel :=
  ⟨fun a b => Int.le_total a.1 b.1⟩

instance : IsTrans (Int × JsonVal) alignRel :=
  ⟨fun _ _ _ h1 h2 => le_trans h1 h2⟩

/-- Lines 58-64 of `dsa_bm25_server.py`: if the first record is a dict with a
`doc_id` key, try to sort records by `int(m["doc_id"])`; CPython precomputes
every key before it permutes the list, so when any key raises (missing key or
unconvertible value) the list stays in file order, and the bare `except`
swallows the exception ("Fallback: keep file order").  A stable sort by the
integer key models `list.sort` (Timsort is stable, as is insertion sort). -/
def serverAlign (metas : List JsonVal) : List JsonVal :=
  if headHasDocId metas then
    match metas.mapM docIdKey with
    | some _ =>
      ((metas.map (fun m => ((docIdKey m).getD 0, m))).insertionSort alignRel).map Prod.snd
    | none => metas
  else metas

/-- Everything `search` needs from the loaded BM25 index: the document count
recorded in the index and, per term, the posting list of (doc id, term
frequency) pairs.  Modelled from the spec, sections 3 and 4.2: the concrete
structure lives inside the third-party `bm25s` library, not in the
repository's sources. -/
structure Index where
  n : Nat
  postings : String → List (Nat × Nat)

/-- Errors the engine can raise while answering one query.  The
configuration error is the spec's `ConfigurationError` for an unknown
stopword language tag; `internalFault` stands for any other unexpected
exception escaping the body of the request handler, carrying `str(e)`. -/
inductive EngineError : Type where
  | configurationError : String → EngineError
  | internalFault : String → EngineError
deriving DecidableEq

/-- Python `str(e)` for the exceptions of `EngineError`. -/
def engineErrorMsg : EngineError → String
  | .configurationError tag => "unknown stopword language tag: " ++ tag
  | .internalFault msg => msg

instance {ε σ : Type} [DecidableEq ε] [DecidableEq σ] : DecidableEq (Except ε σ) :=
  fun a b =>
    match a, b with
    | .ok x, .ok y =>
      match decEq x y with
      | isTrue h => isTrue (by rw [h])
      | isFalse h => isFalse (by intro hc; cases hc; exact h rfl)
    | .error x, .error y =>
      match decEq x y with
      | isTrue h => isTrue (by rw [h])
      | isFalse h => isFalse (by intro hc; cases hc; exact h rfl)
    | .ok _, .error _ => isFalse (by intro hc; cases hc)
    | .error _, .ok _ => isFalse (by intro hc; cases hc)

/-- Modelled from the spec: the stopword language tags the tokenizer
recognises (the sources pass tags such as "de" through to `bm25s.tokenize`,
which is not part of the repository). -/
def recognizedStopwordTags : List String := ["de", "en"]

/-- Modelled from the spec: the stopword list for each recognised tag. -/
def stopwordList (tag : String) : List String :=
  if tag = "de" then ["und", "der", "die", "das", "ein", "eine"]
  else if tag = "en" then ["the", "and", "of", "a", "an"]
  else []

def isTokenChar (c : Char) : Bool := c.isAlphanum

/-- Splits a lower-cased character stream at non-alphanumeric boundaries,
discarding empty tokens; `cur` holds the current token reversed. -/
def splitTokens : List Char → List Char → List String
  | [], cur => if cur.isEmpty then [] else [String.mk cur.reverse]
  | c :: rest, cur =>
    if isTokenChar c then splitTokens rest (c :: cur)
    else if cur.isEmpty then splitTokens rest []
    else String.mk cur.reverse :: splitTokens rest []

/-- Lower-case (character-wise), split on non-alphanumeric boundaries, drop
empty tokens. -/
def baseTokens (text : String) : List String :=
  splitTokens (text.data.map Char.toLower) []

/-- Modelled from the spec, section 4.1: `bm25s.tokenize` is not part of the
repository.  Lower-cases and splits the text, removes the stopwords of a
recognised language tag, and fails with a `ConfigurationError` on an
unrecognised tag; with no tag, no stopword filtering happens. -/
def tokenize (text : String) (stopwords : Option String) : Except EngineError (List String) :=
  match stopwords with
  | none => .ok (baseTokens text)
  | some tag =>
    if recognizedStopwordTags.contains tag then
      .ok ((baseTokens text).filter (fun t => !(stopwordList tag).contains t))
    else
      .error (.configurationError tag)

/-- Modelled from the spec, section 4.5: the documents touched by at least
one query term, i.e. the candidate set of the retriever ("documents not
touched by any query term implicitly have score 0 and are excluded").
Distinct query terms are walked once each; doc ids are deduplicated. -/
def candidates (idx : Index) (terms : List String) : List Nat :=
  ((terms.dedup).map (fun t => (idx.postings t).map Prod.fst)).flatten.dedup

/-- Term frequency of `t` in document `d` as recorded in the posting list,
`none` when the document has no posting for the term. -/
def termTf (idx : Index) (t : String) (d : Nat) : Option Nat :=
  ((idx.postings t).find? (fun p => p.1 == d)).map Prod.snd

section Retrieval

variable {α : Type} [LinearOrder α] [AddCommMonoid α]

/-- Modelled from the spec, section 4.5: the sparse per-document accumulation
of score contributions over the distinct query terms.  The scorer is passed
in abstractly as `sc term doc tf`; the ranking properties of the retriever
hold for every score assignment. -/
def accScore (sc : String → Nat → Nat → α) (idx : Index) (terms : List String) (d : Nat) : α :=
  ((terms.dedup).map (fun t =>
    match termTf idx t d with
    | some tf => sc t d tf
    | none => 0)).sum

/-- Ranking order of the retriever: higher score first, ties broken by the
smaller doc id first. -/
def rankRel : (Nat × α) → (Nat × α) → Prop :=
  fun a b => b.2 < a.2 ∨ (a.2 = b.2 ∧ a.1 ≤ b.1)

instance : DecidableRel (@rankRel α _) :=
  fun a b => inferInstanceAs (Decidable (b.2 < a.2 ∨ (a.2 = b.2 ∧ a.1 ≤ b.1)))

instance : IsTotal (Nat × α) rankRel := by
  constructor
  intro a b
  rcases lt_trichotomy a.2 b.2 with h | h | h
  · exact Or.inr (Or.inl h)
  · rcases Nat.le_total a.1 b.1 with h1 | h1
    · exact Or.inl (Or.inr ⟨h, h1⟩)
    · exact Or.inr (Or.inr ⟨h.symm, h1⟩)
  · exact Or.inl (Or.inl h)

instance : IsTrans (Nat × α) rankRel := by
  constructor
  intro a b c hab hbc
  rcases hab with h1 | ⟨h1, h1i⟩
  · rcases hbc with h2 | ⟨h2, _⟩
    · exact Or.inl (h2.trans h1)
    · exact Or.inl (h2 ▸ h1)
  · rcases hbc with h2 | ⟨h2, h2i⟩
    · exact Or.inl (h1 ▸ h2)
    · exact Or.inr ⟨h1.trans h2, h1i.trans h2i⟩

/-- Modelled from the spec, section 4.5: accumulate per-candidate scores,
sort by descending score with the smaller doc id first on ties, and keep the
first `k` entries (`k ≤ 0` yields the empty sequence, as does a query with no
terms, whose candidate set is empty). -/
def retrieve (sc : String → Nat → Nat → α) (idx : Index) (terms : List String) (k : Int) :
    List (Nat × α) :=
  let scored := (candidates idx terms).map (fun d => (d, accScore sc idx terms d))
  (scored.insertionSort rankRel).take k.toNat

/-- The body of a `/search` request (`dsa_bm25_server.py`). -/
structure SearchRequest where
  query : String
  topk : Int
  stopwords : Option String

/-- One entry of the `results` list built by `search`. -/
structure Hit (α : Type) where
  doc_index : Nat
  score : α
  meta : JsonVal

/-- The JSON object a successful `search` call returns. -/
structure OkResponse (α : Type) where
  query : String
  topk : Int
  stopwords : Option String
  results : List (Hit α)

/-- Outcome of one request: a normal response, or the `HTTPException`
raised by the `except` clause (status code and detail string). -/
inductive HttpResponse (α : Type) : Type where
  | ok : OkResponse α → HttpResponse α
  | httpError : Nat → String → HttpResponse α

def HttpResponse.isOkResp : HttpResponse α → Bool
  | .ok _ => true
  | .httpError _ _ => false

/-- Results list of a response (empty for an error response). -/
def HttpResponse.resultsOf : HttpResponse α → List (Hit α)
  | .ok r => r.results
  | .httpError _ _ => []

/-- The module-level state of `dsa_bm25_server.py` after startup: the aligned
sidecar records, the loaded `bm25s` retriever (abstracted to `idx` and the
scoring function `sc`), and the `DEFAULT_STOPWORDS` environment value. -/
structure ServerState (α : Type) where
  metas : List JsonVal
  idx : Index
  sc : String → Nat → Nat → α
  defaultStopwords : Option String

/-- Line 94: `sw = req.stopwords if req.stopwords is not None else
DEFAULT_STOPWORDS`. -/
def effStopwords (st : ServerState α) (req : SearchRequest) : Option String :=
  match req.stopwords with
  | some s => some s
  | none => st.defaultStopwords

/-- Line 101: `metas[di] if 0 <= di < len(metas) else {}` (doc ids are
nonnegative here, so only the upper bound can fail). -/
def joinMeta (metas : List JsonVal) (d : Nat) : JsonVal :=
  if h : d < metas.length then metas.get ⟨d, h⟩ else JsonVal.jobj []

/-- The `try` body of `search` (lines 94-115): pick the effective stopwords,
tokenize, retrieve top-`topk`, join each doc id to its metadata record and
assemble the response object. -/
def searchBody (st : ServerState α) (req : SearchRequest) : Except EngineError (OkResponse α) :=
  match tokenize req.query (effStopwords st req) with
  | .error e => .error e
  | .ok toks =>
    let hits := retrieve st.sc st.idx toks req.topk
    .ok ⟨req.query, req.topk, effStopwords st req,
         hits.map (fun p => ⟨p.1, p.2, joinMeta st.metas p.1⟩)⟩

/-- The `except Exception as e: raise HTTPException(status_code=500,
detail=str(e))` wrapper around the body (lines 93 and 116-117). -/
def facadeCatch : Except EngineError (OkResponse α) → HttpResponse α
  | .ok r => .ok r
  | .error e => .httpError 500 (engineErrorMsg e)

/-- The `/search` endpoint of `dsa_bm25_server.py` (lines 91-117). -/
def search (st : ServerState α) (req : SearchRequest) : HttpResponse α :=
  facadeCatch (searchBody st req)

/-- A sequence of requests served against the loaded state; the handler
never mutates the module-level state, so each request sees the same state. -/
def serve (st : ServerState α) (reqs : List SearchRequest) : List (HttpResponse α) :=
  reqs.map (search st)

/-- Load-time failures.  `indexNotFound` stands for the two `RuntimeError`s
raised for a missing index folder or sidecar; the other two constructors are
the spec's `MetadataMismatchError` and `MalformedMetadataError`, declared so
that the spec's load contract can be stated against the code. -/
inductive LoadError : Type where
  | indexNotFound : LoadError
  | metadataMismatch : LoadError
  | malformedMetadata : LoadError
deriving DecidableEq

/-- The module-level startup of `dsa_bm25_server.py` (lines 41-67): check
that the index folder and the sidecar exist, read the already-parsed sidecar
records, align them by `doc_id` when possible, and load the retriever.  The
document count `idx.n` recorded in the index is never compared with the
number of sidecar records. -/
def loadEngine (indexDirPresent metaFilePresent : Bool) (idx : Index)
    (sc : String → Nat → Nat → α) (dsw : Option String) (metas : List JsonVal) :
    Except LoadError (ServerState α) :=
  if !indexDirPresent then .error .indexNotFound
  else if !metaFilePresent then .error .indexNotFound
  else .ok ⟨serverAlign metas, idx, sc, dsw⟩

end Retrieval

/-- Modelled from the spec, section 4.4: the Okapi BM25 inverse document
frequency, `ln(1 + (N - df + 0.5) / (df + 0.5))`. -/
noncomputable def bm25Idf (N df : ℝ) : ℝ := Real.log (1 + (N - df + 1 / 2) / (df + 1 / 2))

/-- Modelled from the spec, section 4.4: the normalized term-frequency
factor `(tf * (k1 + 1)) / (tf + k1 * (1 - b + b * len / avgdl))`. -/
noncomputable def bm25TfNorm (tf len avgdl k1 b : ℝ) : ℝ :=
  tf * (k1 + 1) / (tf + k1 * (1 - b + b * len / avgdl))

/-- Modelled from the spec, section 4.4: the BM25 contribution of one
(term, document) pair, `idf * tf_norm`. -/
noncomputable def bm25Score (N df tf len avgdl k1 b : ℝ) : ℝ :=
  bm25Idf N df * bm25TfNorm tf len avgdl k1 b

/-- Fixture scorer over the integers: the raw term frequency. -/
def scTf : String → Nat → Nat → ℤ := fun _ _ tf => (tf : ℤ)

/-- Fixture index with three documents and one indexed term. -/
def idxAdel : Index := ⟨3, fun t => if t = "adel" then [(2, 1), (0, 1), (1, 2)] else []⟩

/-- Fixture metadata record for document 0. -/
def metaA : JsonVal := .jobj [("doc_id", .jnum 0), ("entity_name", .jstr "Adel")]

/-- Fixture server state whose sidecar has fewer records than the index has
documents (one record, three documents). -/
def stAdel : ServerState ℤ := ⟨[metaA], idxAdel, scTf, none⟩

/-- Fixture server state over an empty corpus. -/
def stEmpty : ServerState ℤ := ⟨[], ⟨0, fun _ => []⟩, scTf, none⟩

/-- Fixture index recording five documents. -/
def idx5 : Index := ⟨5, fun t => if t = "adel" then [(0, 2), (2, 1)] else []⟩

/-- Fixture sidecar with four records, one fewer than `idx5` records. -/
def metas4 : List JsonVal :=
  [.jobj [("doc_id", .jnum 0)], .jobj [("doc_id", .jnum 1)],
   .jobj [("doc_id", .jnum 2)], .jobj [("doc_id", .jnum 3)]]

/-- Fixture record whose `doc_id` does not convert to an integer. -/
def metaBadId : JsonVal := .jobj [("doc_id", .jstr "x")]

/-- Fixture record with `doc_id` 0. -/
def metaZero : JsonVal := .jobj [("doc_id", .jnum 0)]

/-- Fixture record with `doc_id` 1. -/
def metaOne : JsonVal := .jobj [("doc_id", .jnum 1)]

/-- Fixture record whose `doc_id` is `null`, so no ordering key exists. -/
def metaNullId : JsonVal := .jobj [("doc_id", .jnull)]

/-- Candidate set of a query with no terms is empty. -/
lemma candidates_nil_terms (idx : Index) : candidates idx [] = [] := rfl

/-- Candidate set over an index with no postings is empty. -/
lemma candidates_eq_nil_of_empty (idx : Index) (h : ∀ t, idx.postings t = [])
    (terms : List String) : candidates idx terms = [] := by
  simp [candidates, h]

/-- Retrieval over an empty candidate set returns no results. -/
lemma retrieve_eq_nil_of_no_candidates {α : Type} [LinearOrder α] [AddCommMonoid α]
    (sc : String → Nat → Nat → α) (idx : Index) (terms : List String) (k : Int)
    (h : candidates idx terms = []) : retrieve sc idx terms k = [] := by
  simp [retrieve, h]

/-- Length of the retrieval result: the top-k cut of the sorted candidates. -/
lemma retrieve_length {α : Type} [LinearOrder α] [AddCommMonoid α]
    (sc : String → Nat → Nat → α) (idx : Index) (terms : List String) (k : Int) :
    (retrieve sc idx terms k).length = min k.toNat (candidates idx terms).length := by
  simp [retrieve, List.length_take, List.length_insertionSort]

/-- C4: a tokenize call with a stopword language tag the engine does not
recognise fails with a `ConfigurationError`, never silently ignoring the
tag, and a search request carrying that tag is answered with a request-scoped
500 error (the operation fails; the process survives to the next request). -/
theorem unknown_tag_configuration_error {α : Type} [LinearOrder α] [AddCommMonoid α]
    (text tag : String) (hun : tag ∉ recognizedStopwordTags)
    (st : ServerState α) (q : String) (k : Int) :
    tokenize text (some tag) = .error (.configurationError tag) ∧
    search st ⟨q, k, some tag⟩ = .httpError 500 (engineErrorMsg (.configurationError tag)) := by
  constructor
  · simp [tokenize, hun]
  · simp [search, searchBody, facadeCatch, effStopwords, tokenize, hun]

/-- Witness for C4 at the unrecognised tag "xx". -/
theorem unknown_tag_configuration_error_witness :
    "xx" ∉ recognizedStopwordTags ∧
    tokenize "Adel" (some "xx") = .error (.configurationError "xx") ∧
    search stAdel ⟨"Adel", 10, some "xx"⟩ =
      .httpError 500 (engineErrorMsg (.configurationError "xx")) :=
  ⟨by decide, (unknown_tag_configuration_error "Adel" "xx" (by decide) stAdel "Adel" 10).1,
    (unknown_tag_configuration_error "Adel" "xx" (by decide) stAdel "Adel" 10).2⟩

/-- C8: `search` is deterministic: two invocations against the same loaded
state with identical arguments produce identical responses (same doc ids,
same scores, same order) -- the embedded handler is a pure function of the
state and the request. -/
theorem search_deterministic {α : Type} [LinearOrder α] [AddCommMonoid α]
    (st : ServerState α) (req1 req2 : SearchRequest) (h : req1 = req2) :
    search st req1 = search st req2 := by
  rw [h]

/-- Witness for C8 on a concrete state and request. -/
theorem search_deterministic_witness :
    search stAdel ⟨"adel", 10, none⟩ = search stAdel ⟨"adel", 10, none⟩ :=
  search_deterministic stAdel ⟨"adel", 10, none⟩ ⟨"adel", 10, none⟩ rfl

/-- C10: an internal fault raised while answering one request is caught at
the facade boundary and turned into a request-scoped 500 error response with
detail `str(e)`; the loaded state is untouched (the handler never writes it)
and serving continues: the remaining requests are answered exactly as if the
faulting request had never happened. -/
theorem fault_isolated_at_facade {α : Type} [LinearOrder α] [AddCommMonoid α]
    (st : ServerState α) (req : SearchRequest) (e : EngineError)
    (hf : searchBody st req = .error e) :
    search st req = .httpError 500 (engineErrorMsg e) ∧
    (∀ rest : List SearchRequest, serve st (req :: rest) = search st req :: serve st rest) ∧
    (∀ e2 : EngineError,
      facadeCatch (Except.error e2 : Except EngineError (OkResponse α)) =
        .httpError 500 (engineErrorMsg e2)) := by
  refine ⟨?_, fun rest => rfl, fun e2 => rfl⟩
  simp [search, hf, facadeCatch]

/-- Witness for C10: a faulting first request (unknown stopword tag "zz")
yields a 500 response and the following request is served normally. -/
theorem fault_isolated_at_facade_witness :
    searchBody stAdel ⟨"Adel", 10, some "zz"⟩ = .error (.configurationError "zz") ∧
    search stAdel ⟨"Adel", 10, some "zz"⟩ =
      .httpError 500 (engineErrorMsg (.configurationError "zz")) ∧
    serve stAdel [⟨"Adel", 10, some "zz"⟩, ⟨"adel", 10, none⟩] =
      search stAdel ⟨"Adel", 10, some "zz"⟩ :: serve stAdel [⟨"adel", 10, none⟩] :=
  ⟨rfl,
    (fault_isolated_at_facade stAdel ⟨"Adel", 10, some "zz"⟩ (.configurationError "zz") rfl).1,
    (fault_isolated_at_facade stAdel ⟨"Adel", 10, some "zz"⟩
      (.configurationError "zz") rfl).2.1 [⟨"adel", 10, none⟩]⟩

/-- Counterexample to C1: loading an index that records five documents
against a sidecar of four records succeeds (no `MetadataMismatchError`, no
failure of any kind) and the engine then serves queries normally. -/
theorem load_mismatch_accepted_counterexample :
    metas4.length ≠ idx5.n ∧
    (loadEngine true true idx5 scTf none metas4).isOk = true ∧
    loadEngine true true idx5 scTf none metas4 = .ok ⟨serverAlign metas4, idx5, scTf, none⟩ ∧
    (search ⟨serverAlign metas4, idx5, scTf, none⟩ ⟨"adel", 10, none⟩).isOkResp = true :=
  ⟨by decide, rfl, rfl, by decide⟩

/-- C1 (amended): loading never compares the sidecar record count with the
document count recorded in the index: with the directory and sidecar present,
a load whose record count differs from `idx.n` still succeeds, and no
combination of inputs ever produces a `MetadataMismatchError`. -/
theorem load_skips_count_check {α : Type} [LinearOrder α] [AddCommMonoid α]
    (idx : Index) (sc : String → Nat → Nat → α) (dsw : Option String)
    (metas : List JsonVal) (_hmis : metas.length ≠ idx.n) :
    (loadEngine true true idx sc dsw metas).isOk = true ∧
    ∀ f1 f2 : Bool, loadEngine f1 f2 idx sc dsw metas ≠ Except.error LoadError.metadataMismatch := by
  refine ⟨rfl, ?_⟩
  intro f1 f2
  cases f1 <;> cases f2 <;> simp [loadEngine]

/-- Witness for C1 (amended) at the four-record sidecar against `idx5`. -/
theorem load_skips_count_check_witness :
    metas4.length ≠ idx5.n ∧
    (loadEngine true true idx5 scTf none metas4).isOk = true ∧
    loadEngine true false idx5 scTf none metas4 ≠ Except.error LoadError.metadataMismatch :=
  ⟨by decide, (load_skips_count_check idx5 scTf none metas4 (by decide)).1,
    (load_skips_count_check idx5 scTf none metas4 (by decide)).2 true false⟩

/-- Counterexample to C2: a sidecar whose first record carries a `doc_id`
that does not convert to an integer loads successfully in file order -- the
claimed fatal `MetadataMismatchError` is never raised and the records are
not reordered (the record with `doc_id` 0 stays second). -/
theorem align_fallback_counterexample :
    docIdKey metaBadId = none ∧
    loadEngine true true idxAdel scTf none [metaBadId, metaZero] =
      .ok ⟨[metaBadId, metaZero], idxAdel, scTf, none⟩ :=
  ⟨by decide, rfl⟩

/-- Counterexample to C3: with the one-record sidecar of `stAdel` loaded
(the code performs no load-time consistency check), a query retrieves doc
ids 1 and 2, both outside the metadata array's bounds, and the facade
answers with a normal 200 response in which those hits carry an empty
metadata object -- a recoverable per-query outcome, not an invariant
violation. -/
theorem oob_docid_normal_result_counterexample :
    stAdel.metas.length = 1 ∧
    (search stAdel ⟨"adel", 10, none⟩).isOkResp = true ∧
    (search stAdel ⟨"adel", 10, none⟩).resultsOf.map (fun h => (h.doc_index, h.meta)) =
      [(1, JsonVal.jobj []), (0, metaA), (2, JsonVal.jobj [])] :=
  ⟨rfl, by decide, rfl⟩

/-- C3 (amended): a retrieved doc id outside the bounds of the loaded
metadata array is handled inside the per-query loop, not treated as an
invariant violation: the hit is kept in the normal result list with an empty
metadata object, while an in-bounds doc id is joined to its record. -/
theorem oob_docid_empty_meta {α : Type} [LinearOrder α] [AddCommMonoid α]
    (st : ServerState α) (req : SearchRequest) :
    ∀ h ∈ (search st req).resultsOf,
      (st.metas.length ≤ h.doc_index → h.meta = JsonVal.jobj []) ∧
      (∀ hlt : h.doc_index < st.metas.length, h.meta = st.metas.get ⟨h.doc_index, hlt⟩) := by
  intro h hmem
  cases htok : tokenize req.query (effStopwords st req) with
  | error e =>
    simp [search, searchBody, facadeCatch, htok, HttpResponse.resultsOf] at hmem
  | ok toks =>
    simp [search, searchBody, facadeCatch, htok, HttpResponse.resultsOf] at hmem
    rcases hmem with ⟨p, s, _hps, rfl⟩
    dsimp only
    constructor
    · intro hle
      simp only [joinMeta]
      rw [dif_neg (by omega)]
    · intro hlt
      simp only [joinMeta]
      rw [dif_pos hlt]

/-- Witness for C3 (amended): the out-of-bounds hit for doc id 1 in a
concrete search against `stAdel` carries the empty metadata object. -/
theorem oob_docid_empty_meta_witness :
    stAdel.metas.length ≤ 1 ∧ (Hit.mk 1 2 (JsonVal.jobj []) : Hit ℤ).meta = JsonVal.jobj [] :=
  ⟨by decide,
    (oob_docid_empty_meta stAdel ⟨"adel", 2, none⟩ ⟨1, 2, JsonVal.jobj []⟩
      (List.Mem.head _)).1 (by decide)⟩

/-- C6: a query that tokenizes to zero terms is answered with a normal
response whose result list is empty, and over an empty corpus (no postings
for any term) every query whose tokenization succeeds is answered with a
normal response whose result list is empty -- no error, no implicit match of
everything. -/
theorem empty_query_empty_corpus {α : Type} [LinearOrder α] [AddCommMonoid α]
    (st : ServerState α) (req : SearchRequest) :
    (tokenize req.query (effStopwords st req) = .ok [] →
      search st req = .ok ⟨req.query, req.topk, effStopwords st req, []⟩) ∧
    ((∀ t, st.idx.postings t = []) →
      ∀ toks, tokenize req.query (effStopwords st req) = .ok toks →
        search st req = .ok ⟨req.query, req.topk, effStopwords st req, []⟩) := by
  constructor
  · intro htok
    simp [search, searchBody, facadeCatch, htok,
      retrieve_eq_nil_of_no_candidates st.sc st.idx [] req.topk (candidates_nil_terms st.idx)]
  · intro hemp toks htok
    simp [search, searchBody, facadeCatch, htok,
      retrieve_eq_nil_of_no_candidates st.sc st.idx toks req.topk
        (candidates_eq_nil_of_empty st.idx hemp toks)]

/-- Witness for C6: a stopword-only query and a query against the empty
corpus, both answered with an empty result list. -/
theorem empty_query_empty_corpus_witness :
    search stEmpty ⟨"und der", 10, some "de"⟩ = .ok ⟨"und der", 10, some "de", []⟩ ∧
    search stEmpty ⟨"adel", 10, none⟩ = .ok ⟨"adel", 10, none, []⟩ :=
  ⟨(empty_query_empty_corpus stEmpty ⟨"und der", 10, some "de"⟩).1 (by decide),
    (empty_query_empty_corpus stEmpty ⟨"adel", 10, none⟩).2 (fun _ => rfl) ["adel"] (by decide)⟩

/-- Projecting doc ids back out of the scored candidate list gives the
candidate list. -/
lemma scored_map_fst {α : Type} (idx : Index) (terms : List String) (f : Nat → α) :
    ((candidates idx terms).map (fun d => (d, f d))).map Prod.fst = candidates idx terms := by
  rw [List.map_map]
  exact List.map_id _

/-- C5: the retrieval result never exceeds `max 0 k` entries nor the number
of documents containing at least one query term; `k ≤ 0` returns the empty
sequence, and when `k` is at least the candidate count every candidate is
returned exactly once with nothing padded in. -/
theorem retrieve_topk_bounds {α : Type} [LinearOrder α] [AddCommMonoid α]
    (sc : String → Nat → Nat → α) (idx : Index) (terms : List String) (k : Int) :
    ((retrieve sc idx terms k).length : Int) ≤ max 0 k ∧
    (retrieve sc idx terms k).length ≤ (candidates idx terms).length ∧
    (k ≤ 0 → retrieve sc idx terms k = []) ∧
    (((candidates idx terms).length : Int) ≤ k →
      ((retrieve sc idx terms k).map Prod.fst).Perm (candidates idx terms)) := by
  have hlen := retrieve_length sc idx terms k
  refine ⟨by omega, by omega, ?_, ?_⟩
  · intro hk
    have hz : k.toNat = 0 := by omega
    simp [retrieve, hz]
  · intro hc
    have hc2 : (candidates idx terms).length ≤ k.toNat := by omega
    have htake :
        (((candidates idx terms).map (fun d => (d, accScore sc idx terms d))).insertionSort
            rankRel).take k.toNat =
          ((candidates idx terms).map (fun d => (d, accScore sc idx terms d))).insertionSort
            rankRel := by
      apply List.take_of_length_le
      rw [List.length_insertionSort, List.length_map]
      exact hc2
    show ((((candidates idx terms).map (fun d => (d, accScore sc idx terms d))).insertionSort
        rankRel).take k.toNat).map Prod.fst |>.Perm (candidates idx terms)
    rw [htake]
    have hperm :=
      (List.perm_insertionSort rankRel
        ((candidates idx terms).map (fun d => (d, accScore sc idx terms d)))).map Prod.fst
    rw [scored_map_fst] at hperm
    exact hperm

/-- Witness for C5 on a concrete index and query. -/
theorem retrieve_topk_bounds_witness :
    ((retrieve scTf idxAdel ["adel"] 9).length : Int) ≤ max 0 9 ∧
    retrieve scTf idxAdel ["adel"] 0 = [] ∧
    ((retrieve scTf idxAdel ["adel"] 9).map Prod.fst).Perm (candidates idxAdel ["adel"]) :=
  ⟨(retrieve_topk_bounds scTf idxAdel ["adel"] 9).1,
    (retrieve_topk_bounds scTf idxAdel ["adel"] 0).2.2.1 (by decide),
    (retrieve_topk_bounds scTf idxAdel ["adel"] 9).2.2.2 (by decide)⟩

/-- Deduplicated candidate lists contain no repeated doc id. -/
lemma candidates_nodup (idx : Index) (terms : List String) : (candidates idx terms).Nodup :=
  List.nodup_dedup _

/-- Retrieval results are pairwise ordered by the ranking relation. -/
lemma retrieve_pairwise_rank {α : Type} [LinearOrder α] [AddCommMonoid α]
    (sc : String → Nat → Nat → α) (idx : Index) (terms : List String) (k : Int) :
    List.Pairwise rankRel (retrieve sc idx terms k) := by
  have hs :=
    List.sorted_insertionSort rankRel
      ((candidates idx terms).map (fun d => (d, accScore sc idx terms d)))
  exact List.Pairwise.sublist (List.take_sublist _ _) hs

/-- Doc ids in a retrieval result are pairwise distinct. -/
lemma retrieve_fst_nodup {α : Type} [LinearOrder α] [AddCommMonoid α]
    (sc : String → Nat → Nat → α) (idx : Index) (terms : List String) (k : Int) :
    ((retrieve sc idx terms k).map Prod.fst).Nodup := by
  have hperm :=
    (List.perm_insertionSort rankRel
      ((candidates idx terms).map (fun d => (d, accScore sc idx terms d)))).map Prod.fst
  rw [scored_map_fst] at hperm
  have hnd : ((((candidates idx terms).map
      (fun d => (d, accScore sc idx terms d))).insertionSort rankRel).map Prod.fst).Nodup :=
    hperm.nodup_iff.mpr (candidates_nodup idx terms)
  exact ((List.take_sublist _ _).map Prod.fst).nodup hnd

/-- C7: whenever two entries of the retrieval result carry equal accumulated
scores, the entry with the smaller doc id is ordered first: along the result
sequence, an earlier entry with the same score as a later one has the
strictly smaller doc id. -/
theorem tie_break_smaller_docid_first {α : Type} [LinearOrder α] [AddCommMonoid α]
    (sc : String → Nat → Nat → α) (idx : Index) (terms : List String) (k : Int) :
    List.Pairwise (fun a b : Nat × α => a.2 = b.2 → a.1 < b.1) (retrieve sc idx terms k) := by
  have hrank := retrieve_pairwise_rank sc idx terms k
  have hne : List.Pairwise (fun a b : Nat × α => a.1 ≠ b.1) (retrieve sc idx terms k) :=
    List.pairwise_map.mp (retrieve_fst_nodup sc idx terms k)
  refine (hrank.and hne).imp ?_
  rintro a b ⟨hr, hab⟩ heq
  rcases hr with hlt | ⟨_, hle⟩
  · rw [heq] at hlt
    exact absurd hlt (lt_irrefl _)
  · exact lt_of_le_of_ne hle hab

/-- C2 (amended): when the first sidecar record is an object with a `doc_id`
key and every record's `doc_id` converts to an integer, the load step
reorders the records into a permutation of the input that is nondecreasing
in the integer `doc_id` key; whenever such an ordering key cannot be
computed for some record, the records are silently kept in file order -- no
`MetadataMismatchError` (or any error) is raised, and duplicate ids are not
detected. -/
theorem align_sort_or_file_order (metas metas2 : List JsonVal) (keys : List Int)
    (hh : headHasDocId metas = true) (hm : metas.mapM docIdKey = some keys)
    (hfall : metas2.mapM docIdKey = none) :
    (serverAlign metas).Perm metas ∧
    List.Pairwise (fun a b => (docIdKey a).getD 0 ≤ (docIdKey b).getD 0) (serverAlign metas) ∧
    serverAlign metas2 = metas2 := by
  have hm2 : List.mapM.loop docIdKey metas [] = some keys := hm
  have hrw : serverAlign metas =
      ((metas.map (fun m => ((docIdKey m).getD 0, m))).insertionSort alignRel).map Prod.snd := by
    simp [serverAlign, hh, hm2]
  have hsnd : (metas.map (fun m => ((docIdKey m).getD 0, m))).map Prod.snd = metas := by
    rw [List.map_map]
    exact List.map_id _
  refine ⟨?_, ?_, ?_⟩
  · rw [hrw]
    have hperm :=
      (List.perm_insertionSort alignRel (metas.map (fun m => ((docIdKey m).getD 0, m)))).map
        Prod.snd
    rw [hsnd] at hperm
    exact hperm
  · rw [hrw, List.pairwise_map]
    have hsorted :=
      List.sorted_insertionSort alignRel (metas.map (fun m => ((docIdKey m).getD 0, m)))
    have hmem : ∀ p ∈ (metas.map (fun m => ((docIdKey m).getD 0, m))).insertionSort alignRel,
        p.1 = (docIdKey p.2).getD 0 := by
      intro p hp
      have hpin : p ∈ metas.map (fun m => ((docIdKey m).getD 0, m)) :=
        (List.perm_insertionSort alignRel _).subset hp
      rcases List.mem_map.mp hpin with ⟨m, _, rfl⟩
      rfl
    refine List.Pairwise.imp_of_mem ?_ hsorted
    intro a b ha hb hr
    rw [← hmem a ha, ← hmem b hb]
    exact hr
  · have hfall2 : List.mapM.loop docIdKey metas2 [] = none := hfall
    cases hh2 : headHasDocId metas2 <;> simp [serverAlign, hh2, hfall2]

/-- Witness for C2 (amended): a two-record sidecar in reversed id order is
sorted, and a record with a `null` id keeps file order. -/
theorem align_sort_or_file_order_witness :
    (serverAlign [metaOne, metaZero]).Perm [metaOne, metaZero] ∧
    List.Pairwise (fun a b => (docIdKey a).getD 0 ≤ (docIdKey b).getD 0)
      (serverAlign [metaOne, metaZero]) ∧
    serverAlign [metaNullId] = [metaNullId] :=
  align_sort_or_file_order [metaOne, metaZero] [metaNullId] [1, 0]
    (by decide) (by decide) (by decide)

/-- The BM25 idf is nonnegative whenever `0 ≤ df ≤ N`: the argument of the
logarithm is at least 1. -/
lemma bm25Idf_nonneg (N df : ℝ) (hdf : 0 ≤ df) (hdfN : df ≤ N) : 0 ≤ bm25Idf N df := by
  unfold bm25Idf
  apply Real.log_nonneg
  have hnum : (0 : ℝ) ≤ N - df + 1 / 2 := by linarith
  have hden : (0 : ℝ) ≤ df + 1 / 2 := by linarith
  nlinarith [div_nonneg hnum hden]

/-- The normalized term-frequency factor is monotone in the term frequency
for admissible parameters. -/
lemma bm25TfNorm_mono (len avgdl k1 b : ℝ) (hk1 : 0 ≤ k1) (hb0 : 0 ≤ b) (hb1 : b ≤ 1)
    (hlen : 0 ≤ len) (havg : 0 ≤ avgdl) (tf1 tf2 : ℝ) (ht1 : 0 ≤ tf1) (h12 : tf1 ≤ tf2) :
    bm25TfNorm tf1 len avgdl k1 b ≤ bm25TfNorm tf2 len avgdl k1 b := by
  unfold bm25TfNorm
  have hK : 0 ≤ k1 * (1 - b + b * len / avgdl) := by
    apply mul_nonneg hk1
    have : 0 ≤ b * len / avgdl := div_nonneg (mul_nonneg hb0 hlen) havg
    linarith
  set K := k1 * (1 - b + b * len / avgdl) with hKdef
  rcases eq_or_lt_of_le (by linarith : (0 : ℝ) ≤ tf1 + K) with h0 | hpos
  · have ht1z : tf1 = 0 := by linarith
    have hKz : K = 0 := by linarith
    rw [ht1z, hKz]
    simp only [zero_mul, zero_div, add_zero, zero_add]
    exact div_nonneg (mul_nonneg (by linarith) (by linarith)) (by linarith)
  · have hpos2 : 0 < tf2 + K := by linarith
    rw [div_le_div_iff₀ hpos hpos2]
    nlinarith [mul_nonneg (mul_nonneg (show (0:ℝ) ≤ k1 + 1 by linarith) hK)
      (sub_nonneg.mpr h12)]

/-- C9: with the index statistics fixed (`0 ≤ df ≤ N`, nonnegative document
length and average length) and admissible parameters (`k1 ≥ 0`,
`0 ≤ b ≤ 1`), increasing a document's term frequency for a query term never
decreases that document's BM25 contribution under the specified formula. -/
theorem bm25_tf_monotone (N df tf1 tf2 len avgdl k1 b : ℝ)
    (hdf : 0 ≤ df) (hdfN : df ≤ N) (hk1 : 0 ≤ k1) (hb0 : 0 ≤ b) (hb1 : b ≤ 1)
    (hlen : 0 ≤ len) (havg : 0 ≤ avgdl) (ht1 : 0 ≤ tf1) (h12 : tf1 ≤ tf2) :
    bm25Score N df tf1 len avgdl k1 b ≤ bm25Score N df tf2 len avgdl k1 b := by
  unfold bm25Score
  exact mul_le_mul_of_nonneg_left
    (bm25TfNorm_mono len avgdl k1 b hk1 hb0 hb1 hlen havg tf1 tf2 ht1 h12)
    (bm25Idf_nonneg N df hdf hdfN)

/-- Witness for C9 at the spec's concrete scenario statistics (N=3, df=2,
len=4, avgdl=4, k1=1.5, b=0.75) with the term frequency raised from 1 to 2. -/
theorem bm25_tf_monotone_witness :
    (0 : ℝ) ≤ 2 ∧ (2 : ℝ) ≤ 3 ∧ (0 : ℝ) ≤ 3 / 2 ∧ (0 : ℝ) ≤ 3 / 4 ∧ (3 : ℝ) / 4 ≤ 1 ∧
    bm25Score 3 2 1 4 4 (3 / 2) (3 / 4) ≤ bm25Score 3 2 2 4 4 (3 / 2) (3 / 4) :=
  ⟨by norm_num, by norm_num, by norm_num, by norm_num, by norm_num,
    bm25_tf_monotone 3 2 1 2 4 4 (3 / 2) (3 / 4) (by norm_num) (by norm_num) (by norm_num)
      (by norm_num) (by norm_num) (by norm_num) (by norm_num) (by norm_num) (by norm_num)⟩
